import Mathlib

/-!
Shallow embedding of the recipe-book backend (`server.js`,
`src/validation/backend.js`): JSON-ish request values, the Yup validation
schemas `storeRecipe` and `editRecipe`, the `transformYupErrorsIntoObject`
error flattener, the secondary `errors` field-check function, the
`deleteFile` wrapper, and the three mutating HTTP handlers
(`POST /add-recipe`, `POST /delete-recipe`, `PUT /update-recipe`) as
functions on an explicit server state (database rows plus the files
present in the thumbnail directory).
-/

namespace RecipeBook

/-- The JavaScript values a request-body field can hold in this server:
absent (`undefined`), `null`, a string, or a number (integers suffice for
the ids and form fields the handlers touch). -/
inductive JSValue where
  | undefined
  | null
  | str (s : String)
  | num (n : Int)
  deriving DecidableEq, Repr

/-- JavaScript truthiness of a `JSValue`: `undefined`, `null`, `""` and `0`
are falsy, everything else here is truthy (`if (!id) ...` in the delete
handler). -/
def JSValue.truthy : JSValue → Bool
  | .undefined => false
  | .null => false
  | .str s => !(s == "")
  | .num n => !(n == 0)

/-- String coercion applied when a validated body field is written into the
database (`stmt.run(title, recipe, ...)`); validated fields are strings
already, numbers are stringified by the driver. -/
def JSValue.asString : JSValue → String
  | .str s => s
  | .num n => toString n
  | .null => "null"
  | .undefined => "undefined"

/-- Value of one decimal digit character. -/
def digitVal? (c : Char) : Option Nat :=
  if c.isDigit then some (c.toNat - Char.toNat '0') else none

/-- Accumulate decimal digits; `none` accumulator means no digit seen yet,
so the empty digit list parses to nothing. -/
def digitsVal? : List Char → Option Nat → Option Nat
  | [], acc => acc
  | c :: cs, acc =>
    match digitVal? c, acc with
    | some d, some n => digitsVal? cs (some (n * 10 + d))
    | some d, none => digitsVal? cs (some d)
    | none, _ => none

/-- Parse a string consisting solely of an optional minus sign and decimal
digits into an integer; anything else parses to `none`. Models SQLite's
numeric coercion of a string bound against the INTEGER `id` column. -/
def strInt? (s : String) : Option Int :=
  match s.toList with
  | '-' :: cs => (digitsVal? cs none).map (fun n => -(n : Int))
  | cs => (digitsVal? cs none).map (fun n => (n : Int))

/-- Whether a request-body id value matches a stored integer row id, as
SQLite's `WHERE id = ?` does: numbers compare directly, numeric strings are
coerced, anything else matches nothing. -/
def idMatches (v : JSValue) (rid : Int) : Bool :=
  match v with
  | .num n => n == rid
  | .str s => strInt? s == some rid
  | _ => false

/-! ## Validation (`src/validation/backend.js`) -/

/-- One entry of a Yup `ValidationError`'s `inner` array: the failed field's
path (absent for object-level failures) and that entry's message list. -/
structure InnerError where
  path : Option String
  messages : List String
  deriving DecidableEq, Repr

/-- Yup `string().required().label(label)` on one value: fails on
`undefined`, `null` and the empty string; non-empty strings pass and
numbers pass by casting. Returns that field's `inner` entries. -/
def requiredString (label : String) (v : JSValue) : List InnerError :=
  match v with
  | .str s => if s == "" then [⟨some label, [label ++ " is a required field"]⟩] else []
  | .num _ => []
  | _ => [⟨some label, [label ++ " is a required field"]⟩]

/-- Yup `mixed().required().label(label)`: fails on `undefined` and `null`
only. -/
def requiredMixed (label : String) (v : JSValue) : List InnerError :=
  match v with
  | .undefined => [⟨some label, [label ++ " is a required field"]⟩]
  | .null => [⟨some label, [label ++ " is a required field"]⟩]
  | _ => []

/-- The flat field-to-message object built by
`transformYupErrorsIntoObject`: JavaScript `obj[path] = msg` keeps the
key's first position but replaces its value. -/
def setKey : List (String × Option String) → String → Option String → List (String × Option String)
  | [], k, v => [(k, v)]
  | (k', v') :: rest, k, v =>
    if k' == k then (k, v) :: rest else (k', v') :: setKey rest k v

/-- Left-to-right `forEach` of `transformYupErrorsIntoObject`: entries
without a path are skipped, entries with a path write
`validationErrors[path] = error.errors[0]` into the accumulator. -/
def transformAux (acc : List (String × Option String)) : List InnerError → List (String × Option String)
  | [] => acc
  | e :: rest =>
    match e.path with
    | none => transformAux acc rest
    | some p => transformAux (setKey acc p e.messages.head?) rest

/-- `transformYupErrorsIntoObject`: flatten a structured validation failure
into a field-name-to-message object. -/
def transformYupErrorsIntoObject (inner : List InnerError) : List (String × Option String) :=
  transformAux [] inner

/-- JavaScript's `!s.trim().length > 0` parses as `(!(s.trim().length)) > 0`
and is true exactly when the trimmed string is empty; blankness is
"every character is whitespace". -/
def isBlank (s : String) : Bool :=
  s.toList.all (fun c => c == ' ' || c == '\t' || c == '\n' || c == '\r')

/-- Modelled from the spec: `checkImageType` is called by `errors` but its
definition is not among the provided sources (it lives in the repository's
front-end validation code); the spec states only `jpg`, `jpeg` and `png`
are accepted. -/
def checkImageType (s : String) : Bool :=
  s == "jpg" || s == "jpeg" || s == "png"

/-- The secondary field-check function `errors([title, recipe, imgType],
edit)`: create mode requires each of title, recipe and image to be
non-blank; edit mode requires at least one of title/recipe to be
non-blank; a non-blank image type must additionally pass
`checkImageType`. Returned as the key/message object it builds. -/
def errors (title recipe imgType : String) (edit : Bool) : List (String × String) :=
  (if edit then
    (if isBlank title && isBlank recipe then
      [("general", "At least one of title or recipe must be filled.")]
    else [])
  else
    (if isBlank title then [("title", "Title is required.")] else []) ++
    (if isBlank recipe then [("recipe", "Recipe is required.")] else []) ++
    (if isBlank imgType then [("imgType", "Image is required.")] else [])) ++
  (if !isBlank imgType && !checkImageType imgType then
    [("imgType", "Invalid image type. Only jpg, jpeg, and png are allowed.")]
  else [])

/-! ## Server state and handlers (`server.js`) -/

/-- One row of the `recipes` table (the `timestamp` column is set by the
store and never consulted by any handler, so it is omitted). -/
structure Row where
  id : Int
  title : String
  recipe : String
  thumbnail : String
  deriving DecidableEq, Repr

/-- Persisted state a request can observe: the table rows and the set of
file names present in the thumbnail directory. -/
structure ServerState where
  rows : List Row
  files : List String
  deriving DecidableEq, Repr

/-- Multer's disk storage runs before the handler body: an uploaded file is
written (under its generated name) before any validation happens. -/
def multerWrite (s : ServerState) (file? : Option String) : ServerState :=
  { s with files := match file? with | some f => f :: s.files | none => s.files }

/-- `db.get("SELECT ... WHERE id = ?")`: the first row whose id matches. -/
def findRow (rows : List Row) (id : JSValue) : Option Row :=
  rows.find? (fun r => idMatches id r.id)

/-- `UPDATE recipes SET title = ?, recipe = ?, thumbnail = ? WHERE id = ?`. -/
def updateRow (rows : List Row) (id : JSValue) (t rcp th : String) : List Row :=
  rows.map (fun r => if idMatches id r.id then { r with title := t, recipe := rcp, thumbnail := th } else r)

/-- The argument of `sendErrorResponse`: either a plain string or the
field-to-message object of a validation failure. -/
inductive ErrMsg where
  | msg (s : String)
  | fields (m : List (String × Option String))
  deriving DecidableEq, Repr

/-- A response body as the handlers build them. -/
inductive ResBody where
  | errObj (e : ErrMsg)
  | created (r : Row)
  | updated (r? : Option Row)
  | deletedOk (id : JSValue)
  deriving DecidableEq, Repr

/-- The top-level keys of the JSON object a body serialises to:
`sendErrorResponse` always wraps its message as `{ error: message }`. -/
def ResBody.topKeys : ResBody → List String
  | .errObj _ => ["error"]
  | .created _ => ["message", "recipe"]
  | .updated _ => ["message", "recipe"]
  | .deletedOk _ => ["message", "id"]

/-- An HTTP response: status code and JSON body. -/
structure Response where
  status : Nat
  body : ResBody
  deriving DecidableEq, Repr

/-- `deleteFile`: wrap `fs.unlink`, whose outcome is the error code it
reported (`none` = removed fine). A missing file (`ENOENT`) resolves like a
success; any other error code rejects with that error. -/
def deleteFile (unlinkErr : Option String) : Except String Unit :=
  match unlinkErr with
  | none => Except.ok ()
  | some code => if code == "ENOENT" then Except.ok () else Except.error code

/-- What one handler invocation did: every intermediate persisted state in
order (the last being the state the request leaves behind), the response
sent, the file names passed to `deleteFile`, and whether the Recipe Store
was consulted at all. -/
structure OpResult where
  states : List ServerState
  response : Response
  fileDeletes : List String
  lookedUp : Bool
  deriving DecidableEq, Repr

/-- The state a handler leaves behind. -/
def OpResult.final (o : OpResult) : ServerState :=
  o.states.getLastD ⟨[], []⟩

/-- Request to `POST /add-recipe`: the text fields and, when multer stored
an upload, its generated file name. -/
structure AddReq where
  title : JSValue
  recipe : JSValue
  file : Option String
  deriving DecidableEq, Repr

/-- The `storeRecipe` schema applied exactly as the create handler does:
`{title, recipe, thumbnail: req.file ? req.file.filename : null}` with
`abortEarly: false`, collecting every field's failures. -/
def storeValidate (r : AddReq) : List InnerError :=
  requiredString "title" r.title ++
  requiredString "recipe" r.recipe ++
  requiredMixed "thumbnail" (match r.file with | some f => .str f | none => .null)

/-- `POST /add-recipe`: multer writes the upload, the schema runs, and on
success the row is inserted and echoed with 201; on failure the response is
400 with `{ error: field-to-message object }`. `newId` is the id the
autoincrement column assigns. -/
def addRecipe (s : ServerState) (r : AddReq) (newId : Int) : OpResult :=
  let s1 := multerWrite s r.file
  let inner := storeValidate r
  if inner = [] then
    let row : Row := ⟨newId, r.title.asString, r.recipe.asString, r.file.getD ""⟩
    { states := [s1, { s1 with rows := s1.rows ++ [row] }]
      response := ⟨201, .created row⟩
      fileDeletes := []
      lookedUp := true }
  else
    { states := [s1]
      response := ⟨400, .errObj (.fields (transformYupErrorsIntoObject inner))⟩
      fileDeletes := []
      lookedUp := false }

/-- `POST /delete-recipe`: a falsy id is rejected 400 before the store is
consulted; an unknown id is 404 with no file touched; otherwise the
thumbnail file is deleted first (`unlinkFails` = `fs.unlink` reported a
non-`ENOENT` error, which aborts with 500 before the row is removed) and
then the row is deleted. -/
def deleteRecipe (s : ServerState) (id : JSValue) (unlinkFails : Bool) : OpResult :=
  if id.truthy = false then
    { states := [s]
      response := ⟨400, .errObj (.msg "ID is required")⟩
      fileDeletes := []
      lookedUp := false }
  else
    match findRow s.rows id with
    | none =>
      { states := [s]
        response := ⟨404, .errObj (.msg "Recipe not found")⟩
        fileDeletes := []
        lookedUp := true }
    | some row =>
      if unlinkFails then
        { states := [s]
          response := ⟨500, .errObj (.msg "Error deleting associated file")⟩
          fileDeletes := [row.thumbnail]
          lookedUp := true }
      else
        let s1 := { s with files := s.files.filter (fun f => !(f == row.thumbnail)) }
        let s2 := { s1 with rows := s1.rows.filter (fun r => !(idMatches id r.id)) }
        { states := [s1, s2]
          response := ⟨200, .deletedOk id⟩
          fileDeletes := [row.thumbnail]
          lookedUp := true }

/-- Request to `PUT /update-recipe`: the text fields and, when multer
stored a replacement upload, its generated file name. -/
structure EditReq where
  id : JSValue
  title : JSValue
  recipe : JSValue
  file : Option String
  deriving DecidableEq, Repr

/-- The `editRecipe` schema applied exactly as the update handler does:
`editRecipe.validate({id, title, recipe})`. `id`, `title` and `recipe` are
each `string().required()`; `thumbnail` is `mixed().nullable()` and never
contributes a failure. -/
def editValidate (r : EditReq) : List InnerError :=
  requiredString "id" r.id ++
  requiredString "title" r.title ++
  requiredString "recipe" r.recipe

/-- `PUT /update-recipe`: multer writes any upload first; then the
`editRecipe` schema runs (failure: 400); then the row is fetched (missing:
404); when a new file was uploaded the old thumbnail file is deleted
*before* the row is updated, and a deletion failure (`cleanupFails`) is
only logged; finally the row is updated and re-read into the 200 body. -/
def updateRecipe (s : ServerState) (r : EditReq) (cleanupFails : Bool) : OpResult :=
  let s1 := multerWrite s r.file
  let inner := editValidate r
  if inner = [] then
    match findRow s1.rows r.id with
    | none =>
      { states := [s1]
        response := ⟨404, .errObj (.msg "Recipe not found")⟩
        fileDeletes := []
        lookedUp := true }
    | some row =>
      match r.file with
      | some newf =>
        let s2 := if cleanupFails then s1
          else { s1 with files := s1.files.filter (fun f => !(f == row.thumbnail)) }
        let s3 := { s2 with rows := updateRow s2.rows r.id r.title.asString r.recipe.asString newf }
        { states := [s1, s2, s3]
          response := ⟨200, .updated (findRow s3.rows r.id)⟩
          fileDeletes := [row.thumbnail]
          lookedUp := true }
      | none =>
        let s2 := { s1 with rows := updateRow s1.rows r.id r.title.asString r.recipe.asString row.thumbnail }
        { states := [s1, s2]
          response := ⟨200, .updated (findRow s2.rows r.id)⟩
          fileDeletes := []
          lookedUp := true }
  else
    { states := [s1]
      response := ⟨400, .errObj (.fields (transformYupErrorsIntoObject inner))⟩
      fileDeletes := []
      lookedUp := false }

/-- The §3 invariant under scrutiny: every readable row's thumbnail names a
file present in the thumbnail directory. -/
def thumbInv (s : ServerState) : Prop :=
  ∀ r ∈ s.rows, r.thumbnail ∈ s.files

instance (s : ServerState) : Decidable (thumbInv s) := by
  unfold thumbInv; infer_instance

/-- A well-formed persisted state: the invariant holds and, as the
collision-resistant generated names guarantee, no two rows share a
thumbnail file name. -/
def goodState (s : ServerState) : Prop :=
  thumbInv s ∧ (s.rows.map Row.thumbnail).Nodup

instance (s : ServerState) : Decidable (goodState s) := by
  unfold goodState; infer_instance

end RecipeBook


namespace RecipeBook

/-! ## Helper lemmas -/

/-- `updateRow` rewrites exactly the matching rows, so looking the id up
afterwards returns the looked-up row with the three mutable fields
overwritten. -/
theorem findRow_updateRow (id : JSValue) (t rcp th : String) :
    ∀ rows : List Row, findRow (updateRow rows id t rcp th) id =
      (findRow rows id).map (fun r => { r with title := t, recipe := rcp, thumbnail := th })
  | [] => rfl
  | r :: rest => by
    by_cases h : idMatches id r.id
    · simp [findRow, updateRow, h]
    · simpa [findRow, updateRow, h] using findRow_updateRow id t rcp th rest

/-- Looking a key up after a JavaScript-style `obj[k] = v` assignment. -/
theorem lookup_setKey (k p : String) (v : Option String) :
    ∀ m : List (String × Option String),
      List.lookup p (setKey m k v) = if p = k then some v else List.lookup p m
  | [] => by
    by_cases h : p = k
    · subst h
      simp [setKey, List.lookup]
    · have hb : (p == k) = false := beq_eq_false_iff_ne.mpr h
      simp [setKey, List.lookup, h, hb]
  | (k', v') :: rest => by
    by_cases hk : k' = k
    · subst hk
      have hb : (k' == k') = true := beq_self_eq_true k'
      by_cases hp : p = k'
      · subst hp
        simp [setKey, List.lookup, hb]
      · have hbp : (p == k') = false := beq_eq_false_iff_ne.mpr hp
        simp [setKey, List.lookup, hb, hbp, hp]
    · have hb : (k' == k) = false := beq_eq_false_iff_ne.mpr hk
      by_cases hp : p = k'
      · subst hp
        have hbp : (p == p) = true := beq_self_eq_true p
        simp [setKey, List.lookup, hb, hbp, hk]
      · have hbp : (p == k') = false := beq_eq_false_iff_ne.mpr hp
        simp [setKey, List.lookup, hb, hbp, lookup_setKey k p v rest]

/-- The `forEach` loop of `transformYupErrorsIntoObject` processed left to
right with overwriting: a key's final value comes from the *last* inner
entry naming it, and keys named by no entry fall through to the
accumulator. -/
theorem lookup_transformAux (p : String) :
    ∀ (l : List InnerError) (acc : List (String × Option String)),
      List.lookup p (transformAux acc l) =
        match l.reverse.find? (fun e => e.path == some p) with
        | some e => some e.messages.head?
        | none => List.lookup p acc
  | [], acc => rfl
  | e :: rest, acc => by
    have hsplit : (e :: rest).reverse.find? (fun e => e.path == some p)
        = (rest.reverse.find? (fun e => e.path == some p)).or
            (if e.path == some p then some e else none) := by
      rw [List.reverse_cons, List.find?_append]
      congr 1
      by_cases hp : (e.path == some p) = true
      · simp [List.find?, hp]
      · have hp' : (e.path == some p) = false := by
          cases hb : e.path == some p
          · rfl
          · exact absurd hb hp
        simp [List.find?, hp']
    match he : e.path with
    | none =>
      have hp : (e.path == some p) = false := by simp [he]
      rw [hsplit, hp]
      simp only [transformAux, he, lookup_transformAux p rest acc, Bool.false_eq_true,
        if_false, Option.or_none]
    | some q =>
      by_cases hq : q = p
      · rw [hq] at he
        have hp : (e.path == some p) = true := by simp [he]
        rw [hsplit, hp]
        simp only [transformAux, he, lookup_transformAux p rest (setKey acc p e.messages.head?),
          if_true]
        cases hfind : rest.reverse.find? (fun e => e.path == some p) with
        | some e' => simp [hfind]
        | none => simp [hfind, lookup_setKey]
      · have hp : (e.path == some p) = false := by simp [he, hq]
        rw [hsplit, hp]
        simp only [transformAux, he, lookup_transformAux p rest (setKey acc q e.messages.head?),
          Bool.false_eq_true, if_false, Option.or_none]
        cases hfind : rest.reverse.find? (fun e => e.path == some p) with
        | some e' => simp [hfind]
        | none => simp [hfind, lookup_setKey, Ne.symm hq]

/-- Key lookup in the finished `transformYupErrorsIntoObject` object. -/
theorem lookup_transform (p : String) (inner : List InnerError) :
    List.lookup p (transformYupErrorsIntoObject inner) =
      (inner.reverse.find? (fun e => e.path == some p)).map (fun e => e.messages.head?) := by
  rw [transformYupErrorsIntoObject, lookup_transformAux p inner []]
  cases hfind : inner.reverse.find? (fun e => e.path == some p) with
  | some e => simp
  | none => simp [List.lookup]

/-- Every inner entry produced by `requiredString` carries its own label as
path. -/
theorem requiredString_path (label : String) (v : JSValue) :
    ∀ e ∈ requiredString label v, e.path = some label := by
  intro e he
  match v with
  | .str s =>
    by_cases h : s == ""
    · simp [requiredString, h] at he; simp [he]
    · simp [requiredString, h] at he
  | .num n => simp [requiredString] at he
  | .null => simp [requiredString] at he; simp [he]
  | .undefined => simp [requiredString] at he; simp [he]

/-- Every inner entry produced by `requiredMixed` carries its own label as
path. -/
theorem requiredMixed_path (label : String) (v : JSValue) :
    ∀ e ∈ requiredMixed label v, e.path = some label := by
  intro e he
  match v with
  | .str s => simp [requiredMixed] at he
  | .num n => simp [requiredMixed] at he
  | .null => simp [requiredMixed] at he; simp [he]
  | .undefined => simp [requiredMixed] at he; simp [he]


/-- Keys present after a `setKey` assignment: the old keys plus `k`. -/
theorem mem_keys_setKey (a k : String) (v : Option String) :
    ∀ m : List (String × Option String),
      a ∈ (setKey m k v).map Prod.fst → a ∈ m.map Prod.fst ∨ a = k
  | [] => by
    intro h
    simp [setKey] at h
    exact Or.inr h
  | (k', v') :: rest => by
    intro h
    by_cases hk : k' = k
    · subst hk
      have hb : (k' == k') = true := beq_self_eq_true k'
      simp only [setKey, hb, if_true, List.map_cons, List.mem_cons] at h
      rcases h with h | h
      · exact Or.inr h
      · exact Or.inl (by rw [List.map_cons]; exact List.mem_cons_of_mem _ h)
    · have hb : (k' == k) = false := beq_eq_false_iff_ne.mpr hk
      simp only [setKey, hb, Bool.false_eq_true, if_false, List.map_cons, List.mem_cons] at h
      rcases h with h | h
      · exact Or.inl (by rw [List.map_cons, h]; exact List.mem_cons_self _ _)
      · rcases mem_keys_setKey a k v rest h with h' | h'
        · exact Or.inl (by rw [List.map_cons]; exact List.mem_cons_of_mem _ h')
        · exact Or.inr h'

/-- A `setKey` assignment never duplicates a key. -/
theorem keys_nodup_setKey (k : String) (v : Option String) :
    ∀ m : List (String × Option String),
      (m.map Prod.fst).Nodup → ((setKey m k v).map Prod.fst).Nodup
  | [] => by
    intro _
    simp [setKey]
  | (k', v') :: rest => by
    intro h
    simp only [List.map_cons, List.nodup_cons] at h
    by_cases hk : k' = k
    · subst hk
      have hb : (k' == k') = true := beq_self_eq_true k'
      simp only [setKey, hb, if_true, List.map_cons, List.nodup_cons]
      exact h
    · have hb : (k' == k) = false := beq_eq_false_iff_ne.mpr hk
      simp only [setKey, hb, Bool.false_eq_true, if_false, List.map_cons, List.nodup_cons]
      refine ⟨fun hmem => ?_, keys_nodup_setKey k v rest h.2⟩
      rcases mem_keys_setKey k' k v rest hmem with h' | h'
      · exact h.1 h'
      · exact hk h'

/-- The `forEach` loop keeps the accumulator's keys duplicate-free. -/
theorem keys_nodup_transformAux :
    ∀ (l : List InnerError) (acc : List (String × Option String)),
      (acc.map Prod.fst).Nodup → ((transformAux acc l).map Prod.fst).Nodup
  | [], acc => fun h => h
  | e :: rest, acc => by
    intro h
    match he : e.path with
    | none =>
      simp only [transformAux, he]
      exact keys_nodup_transformAux rest acc h
    | some p =>
      simp only [transformAux, he]
      exact keys_nodup_transformAux rest _ (keys_nodup_setKey p e.messages.head? acc h)

/-- `transformYupErrorsIntoObject` maps each field name to at most one
message. -/
theorem keys_nodup_transform (inner : List InnerError) :
    ((transformYupErrorsIntoObject inner).map Prod.fst).Nodup :=
  keys_nodup_transformAux inner [] (by simp)

/-- `multerWrite` only touches the file tree, never the rows. -/
theorem multerWrite_rows (s : ServerState) (f? : Option String) :
    (multerWrite s f?).rows = s.rows := rfl

/-- The final state of a one-step handler result. -/
theorem final_one (a : ServerState) (resp : Response) (fd : List String) (lu : Bool) :
    (OpResult.mk [a] resp fd lu).final = a := rfl

/-- The final state of a two-step handler result. -/
theorem final_two (a b : ServerState) (resp : Response) (fd : List String) (lu : Bool) :
    (OpResult.mk [a, b] resp fd lu).final = b := rfl

/-- The final state of a three-step handler result. -/
theorem final_three (a b c : ServerState) (resp : Response) (fd : List String) (lu : Bool) :
    (OpResult.mk [a, b, c] resp fd lu).final = c := rfl

/-! ## Claim theorems -/

/-- C9 counterexample: two violations naming the same field `title`, the
first with message "A", the second with message "B". The transformation
keeps "B" — the message of the *last* violation, not the first as claimed. -/
theorem c9_counterexample :
    transformYupErrorsIntoObject [⟨some "title", ["A"]⟩, ⟨some "title", ["B"]⟩] =
      [("title", some "B")] ∧
    List.lookup "title"
        (transformYupErrorsIntoObject [⟨some "title", ["A"]⟩, ⟨some "title", ["B"]⟩]) ≠
      some (some "A") := by
  decide

/-- C9 (amended): the error-transformation function produces a mapping with
exactly one entry per field name, and when multiple violations name the
same field the message of the *last* violation wins (each violation
contributing the first message of its own message list). -/
theorem c9_error_mapping_last_wins (inner : List InnerError) (p : String) :
    ((transformYupErrorsIntoObject inner).map Prod.fst).Nodup ∧
    List.lookup p (transformYupErrorsIntoObject inner) =
      (inner.reverse.find? (fun e => e.path == some p)).map (fun e => e.messages.head?) :=
  ⟨keys_nodup_transform inner, lookup_transform p inner⟩

/-- C6: `deleteFile` resolves when `fs.unlink` succeeds or reports
`ENOENT` (idempotent delete) and rejects with the error for every other
error code. -/
theorem c6_deleteFile_idempotent :
    deleteFile none = Except.ok () ∧ deleteFile (some "ENOENT") = Except.ok () ∧
    ∀ code, code ≠ "ENOENT" → deleteFile (some code) = Except.error code := by
  refine ⟨rfl, rfl, ?_⟩
  intro code hc
  have hb : (code == "ENOENT") = false := beq_eq_false_iff_ne.mpr hc
  simp [deleteFile, hb]

/-- C6 witness: a concrete non-`ENOENT` error code rejects. -/
theorem c6_deleteFile_idempotent_witness :
    ("EACCES" : String) ≠ "ENOENT" ∧ deleteFile (some "EACCES") = Except.error "EACCES" :=
  ⟨by decide, c6_deleteFile_idempotent.2.2 "EACCES" (by decide)⟩

/-- C7: deleting a present (truthy) id that matches no stored row responds
404, attempts no file deletion, and leaves the state untouched. -/
theorem c7_delete_unknown_id (s : ServerState) (id : JSValue) (unlinkFails : Bool)
    (ht : id.truthy = true) (hrow : findRow s.rows id = none) :
    (deleteRecipe s id unlinkFails).response.status = 404 ∧
    (deleteRecipe s id unlinkFails).fileDeletes = [] ∧
    (deleteRecipe s id unlinkFails).states = [s] := by
  simp [deleteRecipe, ht, hrow]

/-- C7 witness: deleting id 5 from an empty table. -/
theorem c7_delete_unknown_id_witness :
    JSValue.truthy (.num 5) = true ∧ findRow ([] : List Row) (.num 5) = none ∧
    (deleteRecipe ⟨[], []⟩ (.num 5) false).response.status = 404 ∧
    (deleteRecipe ⟨[], []⟩ (.num 5) false).fileDeletes = [] ∧
    (deleteRecipe ⟨[], []⟩ (.num 5) false).states = [⟨[], []⟩] :=
  ⟨by decide, by decide, c7_delete_unknown_id ⟨[], []⟩ (.num 5) false (by decide) (by decide)⟩

/-- C10: a falsy delete id (absent, null, empty string, or 0) is rejected
400 with "ID is required" before the store is consulted: no lookup
happens, no file is touched, the state is unchanged, and the status is
400 (so never 404). -/
theorem c10_falsy_id_rejected (s : ServerState) (unlinkFails : Bool) (id : JSValue)
    (h : id ∈ [JSValue.undefined, JSValue.null, JSValue.str "", JSValue.num 0]) :
    deleteRecipe s id unlinkFails =
      ⟨[s], ⟨400, .errObj (.msg "ID is required")⟩, [], false⟩ := by
  have ht : id.truthy = false := by
    simp only [List.mem_cons, List.not_mem_nil, or_false] at h
    rcases h with h | h | h | h <;> subst h <;> rfl
  simp [deleteRecipe, ht]

/-- C10 witness: the empty-string id on a non-empty store. -/
theorem c10_falsy_id_rejected_witness :
    (JSValue.str "") ∈ [JSValue.undefined, JSValue.null, JSValue.str "", JSValue.num 0] ∧
    deleteRecipe ⟨[⟨1, "t", "r", "a.jpg"⟩], ["a.jpg"]⟩ (.str "") false =
      ⟨[⟨[⟨1, "t", "r", "a.jpg"⟩], ["a.jpg"]⟩], ⟨400, .errObj (.msg "ID is required")⟩, [], false⟩ :=
  ⟨by decide, c10_falsy_id_rejected ⟨[⟨1, "t", "r", "a.jpg"⟩], ["a.jpg"]⟩ false (.str "") (by decide)⟩


/-- C5: an edit that uploads a new thumbnail still succeeds when deleting
the old file fails: the deletion was attempted (and merely logged), the
response is 200 carrying the updated row, and the stored row's thumbnail
is the new generated filename. -/
theorem c5_edit_cleanup_failure_nonfatal (s : ServerState) (r : EditReq) (newf : String)
    (row : Row) (hf : r.file = some newf) (hv : editValidate r = [])
    (hrow : findRow s.rows r.id = some row) :
    (updateRecipe s r true).response =
      ⟨200, .updated (some ⟨row.id, r.title.asString, r.recipe.asString, newf⟩)⟩ ∧
    findRow (updateRecipe s r true).final.rows r.id =
      some ⟨row.id, r.title.asString, r.recipe.asString, newf⟩ ∧
    (updateRecipe s r true).fileDeletes = [row.thumbnail] := by
  simp only [updateRecipe, hv, if_true, multerWrite_rows, hrow, hf, if_pos rfl]
  simp [OpResult.final, findRow_updateRow, hrow, multerWrite_rows]

/-- C5 witness: concrete edit of row 1 with a fresh file while the old
file's deletion fails. -/
theorem c5_edit_cleanup_failure_nonfatal_witness :
    (⟨.str "1", .str "x", .str "y", some "b.jpg"⟩ : EditReq).file = some "b.jpg" ∧
    editValidate ⟨.str "1", .str "x", .str "y", some "b.jpg"⟩ = [] ∧
    findRow [⟨1, "t", "r", "a.jpg"⟩] (.str "1") = some ⟨1, "t", "r", "a.jpg"⟩ ∧
    (updateRecipe ⟨[⟨1, "t", "r", "a.jpg"⟩], ["a.jpg"]⟩ ⟨.str "1", .str "x", .str "y", some "b.jpg"⟩ true).response =
      ⟨200, .updated (some ⟨1, "x", "y", "b.jpg"⟩)⟩ ∧
    findRow (updateRecipe ⟨[⟨1, "t", "r", "a.jpg"⟩], ["a.jpg"]⟩ ⟨.str "1", .str "x", .str "y", some "b.jpg"⟩ true).final.rows (.str "1") =
      some ⟨1, "x", "y", "b.jpg"⟩ ∧
    (updateRecipe ⟨[⟨1, "t", "r", "a.jpg"⟩], ["a.jpg"]⟩ ⟨.str "1", .str "x", .str "y", some "b.jpg"⟩ true).fileDeletes = ["a.jpg"] :=
  ⟨by decide, by decide, by decide,
    c5_edit_cleanup_failure_nonfatal ⟨[⟨1, "t", "r", "a.jpg"⟩], ["a.jpg"]⟩
      ⟨.str "1", .str "x", .str "y", some "b.jpg"⟩ "b.jpg" ⟨1, "t", "r", "a.jpg"⟩
      (by decide) (by decide) (by decide)⟩

/-- C8: an edit uploading no new file that reaches the store performs no
file deletion, leaves the file tree untouched, succeeds with 200, and
keeps the stored row's thumbnail exactly as it was. -/
theorem c8_edit_without_file_preserves_thumbnail (s : ServerState) (r : EditReq) (row : Row)
    (cleanupFails : Bool) (hf : r.file = none) (hv : editValidate r = [])
    (hrow : findRow s.rows r.id = some row) :
    (updateRecipe s r cleanupFails).fileDeletes = [] ∧
    (updateRecipe s r cleanupFails).final.files = s.files ∧
    (updateRecipe s r cleanupFails).response.status = 200 ∧
    findRow (updateRecipe s r cleanupFails).final.rows r.id =
      some ⟨row.id, r.title.asString, r.recipe.asString, row.thumbnail⟩ := by
  simp only [updateRecipe, hv, if_true, multerWrite_rows, hrow, hf]
  simp [OpResult.final, findRow_updateRow, hrow, multerWrite_rows, multerWrite]

/-- C8 witness: concrete title/recipe-only edit of row 1. -/
theorem c8_edit_without_file_preserves_thumbnail_witness :
    (⟨.str "1", .str "x", .str "y", none⟩ : EditReq).file = none ∧
    editValidate ⟨.str "1", .str "x", .str "y", none⟩ = [] ∧
    findRow [⟨1, "t", "r", "a.jpg"⟩] (.str "1") = some ⟨1, "t", "r", "a.jpg"⟩ ∧
    (updateRecipe ⟨[⟨1, "t", "r", "a.jpg"⟩], ["a.jpg"]⟩ ⟨.str "1", .str "x", .str "y", none⟩ false).fileDeletes = [] ∧
    (updateRecipe ⟨[⟨1, "t", "r", "a.jpg"⟩], ["a.jpg"]⟩ ⟨.str "1", .str "x", .str "y", none⟩ false).final.files = ["a.jpg"] ∧
    (updateRecipe ⟨[⟨1, "t", "r", "a.jpg"⟩], ["a.jpg"]⟩ ⟨.str "1", .str "x", .str "y", none⟩ false).response.status = 200 ∧
    findRow (updateRecipe ⟨[⟨1, "t", "r", "a.jpg"⟩], ["a.jpg"]⟩ ⟨.str "1", .str "x", .str "y", none⟩ false).final.rows (.str "1") =
      some ⟨1, "x", "y", "a.jpg"⟩ :=
  ⟨by decide, by decide, by decide,
    c8_edit_without_file_preserves_thumbnail ⟨[⟨1, "t", "r", "a.jpg"⟩], ["a.jpg"]⟩
      ⟨.str "1", .str "x", .str "y", none⟩ ⟨1, "t", "r", "a.jpg"⟩ false
      (by decide) (by decide) (by decide)⟩


/-- C1 counterexample: an edit request with `id` and `title` present but
`recipe` absent — the claim says it passes validation, but the
`editRecipe` schema used by `PUT /update-recipe` rejects it with 400. -/
theorem c1_counterexample :
    (JSValue.str "1").truthy = true ∧
    editValidate ⟨.str "1", .str "x", .undefined, none⟩ ≠ [] ∧
    (updateRecipe ⟨[⟨1, "t", "r", "a.jpg"⟩], ["a.jpg"]⟩
        ⟨.str "1", .str "x", .undefined, none⟩ false).response.status = 400 := by
  refine ⟨by decide, by decide, by decide⟩

/-- C1 (amended): the `editRecipe` schema actually used by
`PUT /update-recipe` requires `id`, `title` and `recipe` all present and
non-empty, so an edit supplying only one of `title`/`recipe` is rejected
with 400; the "at least one of title/recipe" rule lives only in the
secondary `errors` check in edit mode, which indeed accepts whenever at
least one of the two is non-blank and objects (under `general`) only when
both are blank. -/
theorem c1_edit_validation_requires_both :
    (∀ (s : ServerState) (r : EditReq) (cf : Bool),
      r.recipe = .undefined → (updateRecipe s r cf).response.status = 400) ∧
    (∀ (s : ServerState) (r : EditReq) (cf : Bool),
      r.title = .undefined → (updateRecipe s r cf).response.status = 400) ∧
    (∀ t rcp img, isBlank t = false ∨ isBlank rcp = false →
      List.lookup "general" (errors t rcp img true) = none) ∧
    (∀ t rcp img, isBlank t = true → isBlank rcp = true →
      List.lookup "general" (errors t rcp img true) =
        some "At least one of title or recipe must be filled.") := by
  refine ⟨?_, ?_, ?_, ?_⟩
  · intro s r cf h
    have hvne : ¬ editValidate r = [] := by
      simp [editValidate, h, requiredString]
    simp [updateRecipe, hvne]
  · intro s r cf h
    have hvne : ¬ editValidate r = [] := by
      simp [editValidate, h, requiredString]
    simp [updateRecipe, hvne]
  · intro t rcp img h
    rcases h with h | h <;>
      · simp only [errors, h, Bool.false_and, Bool.and_false, if_true, if_false,
          Bool.false_eq_true, List.nil_append]
        by_cases hbi : isBlank img <;> by_cases hci : checkImageType img <;>
          simp [hbi, hci, List.lookup]
  · intro t rcp img h1 h2
    simp only [errors, h1, h2, Bool.and_self, if_true]
    by_cases hbi : isBlank img <;> by_cases hci : checkImageType img <;>
      simp [hbi, hci, List.lookup]

/-- C1 witness: a title-only edit is rejected 400, and the secondary check
accepts a title-only edit input. -/
theorem c1_edit_validation_requires_both_witness :
    (⟨.str "1", .str "x", .undefined, none⟩ : EditReq).recipe = .undefined ∧
    (updateRecipe ⟨[⟨1, "t", "r", "a.jpg"⟩], ["a.jpg"]⟩
        ⟨.str "1", .str "x", .undefined, none⟩ false).response.status = 400 ∧
    isBlank "x" = false ∧
    List.lookup "general" (errors "x" "" "jpg" true) = none :=
  ⟨rfl,
    c1_edit_validation_requires_both.1 ⟨[⟨1, "t", "r", "a.jpg"⟩], ["a.jpg"]⟩
      ⟨.str "1", .str "x", .undefined, none⟩ false rfl,
    by decide,
    c1_edit_validation_requires_both.2.2.1 "x" "" "jpg" (Or.inl (by decide))⟩

/-- C3 counterexample: a create missing `title` does respond 400, but the
body is `{ error: mapping }`, so the body's only top-level key is
`error` — the field-to-message mapping is not the body itself and the
body has no top-level `title` key. -/
theorem c3_counterexample :
    (addRecipe ⟨[], []⟩ ⟨.undefined, .str "Boil water", some "1-2.jpg"⟩ 1).response.status = 400 ∧
    (addRecipe ⟨[], []⟩ ⟨.undefined, .str "Boil water", some "1-2.jpg"⟩ 1).response.body.topKeys = ["error"] ∧
    "title" ∉ (addRecipe ⟨[], []⟩ ⟨.undefined, .str "Boil water", some "1-2.jpg"⟩ 1).response.body.topKeys := by
  refine ⟨by decide, by decide, by decide⟩

/-- C3 (amended): a create missing `title` responds 400 and its body is
`{ error: m }` where the mapping `m` (not the body itself) contains the
`title` key bound to the required-field message. -/
theorem c3_create_missing_title (s : ServerState) (r : AddReq) (newId : Int)
    (h : r.title = .undefined) :
    ∃ m, (addRecipe s r newId).response = ⟨400, .errObj (.fields m)⟩ ∧
      List.lookup "title" m = some (some "title is a required field") := by
  have hvne : ¬ storeValidate r = [] := by
    simp [storeValidate, h, requiredString]
  refine ⟨transformYupErrorsIntoObject (storeValidate r), ?_, ?_⟩
  · simp [addRecipe, hvne]
  · rw [lookup_transform]
    have hsplit : (storeValidate r).reverse =
        (requiredString "recipe" r.recipe ++
          requiredMixed "thumbnail"
            (match r.file with | some f => JSValue.str f | none => JSValue.null)).reverse ++
          [⟨some "title", ["title is a required field"]⟩] := by
      simp [storeValidate, h, requiredString]
    rw [hsplit, List.find?_append]
    have hnone : (requiredString "recipe" r.recipe ++
        requiredMixed "thumbnail"
          (match r.file with | some f => JSValue.str f | none => JSValue.null)).reverse.find?
            (fun e => e.path == some "title") = none := by
      rw [List.find?_eq_none]
      intro e he
      rw [List.mem_reverse, List.mem_append] at he
      rcases he with he | he
      · have hp := requiredString_path "recipe" r.recipe e he
        simp [hp]
      · have hp := requiredMixed_path "thumbnail" _ e he
        simp [hp]
    rw [hnone]
    rfl

/-- C3 witness: the concrete create with only `title` missing. -/
theorem c3_create_missing_title_witness :
    (⟨.undefined, .str "Boil water", some "1-2.jpg"⟩ : AddReq).title = .undefined ∧
    ∃ m, (addRecipe ⟨[], []⟩ ⟨.undefined, .str "Boil water", some "1-2.jpg"⟩ 1).response =
        ⟨400, .errObj (.fields m)⟩ ∧
      List.lookup "title" m = some (some "title is a required field") :=
  ⟨rfl, c3_create_missing_title ⟨[], []⟩ ⟨.undefined, .str "Boil water", some "1-2.jpg"⟩ 1 rfl⟩

/-- C4 counterexample: `" "` is a non-empty string that is none of `jpg`,
`jpeg`, `png`, yet `errors` never reports the invalid-image-type message
for it: the whitespace-only string is treated as blank, yielding no
`imgType` entry in edit mode and the "Image is required." message (not the
invalid-type one) in create mode. -/
theorem c4_counterexample :
    (" " : String) ≠ "" ∧ checkImageType " " = false ∧
    List.lookup "imgType" (errors "t" "r" " " true) = none ∧
    List.lookup "imgType" (errors "t" "r" " " false) = some "Image is required." := by
  refine ⟨by decide, by decide, by decide, by decide⟩

/-- C4 (amended): for every image-type string that is non-blank (non-empty
after trimming) and not `jpg`/`jpeg`/`png`, `errors` reports the
invalid-image-type message under `imgType`; for `jpg`, `jpeg` and `png`
no `imgType` entry is produced at all. -/
theorem c4_image_extension_whitelist :
    (∀ t rcp img edit, isBlank img = false → checkImageType img = false →
      List.lookup "imgType" (errors t rcp img edit) =
        some "Invalid image type. Only jpg, jpeg, and png are allowed.") ∧
    (∀ t rcp img edit, checkImageType img = true →
      List.lookup "imgType" (errors t rcp img edit) = none) := by
  constructor
  · intro t rcp img edit h1 h2
    cases edit
    · simp only [errors, h1, h2, Bool.not_false, Bool.not_true, Bool.and_true, if_true,
        Bool.false_eq_true, if_false, List.nil_append]
      by_cases hbt : isBlank t <;> by_cases hbr : isBlank rcp <;>
        simp [hbt, hbr, List.lookup]
    · simp only [errors, h1, h2, Bool.not_false, Bool.not_true, Bool.and_true, if_true,
        Bool.false_eq_true, if_false, List.nil_append]
      by_cases hbt : isBlank t <;> by_cases hbr : isBlank rcp <;>
        simp [hbt, hbr, List.lookup]
  · intro t rcp img edit h
    have himg : (img = "jpg" ∨ img = "jpeg") ∨ img = "png" := by
      simpa [checkImageType] using h
    rw [or_assoc] at himg
    have hbi : isBlank img = false := by
      rcases himg with h' | h' | h' <;> subst h' <;> decide
    cases edit
    · simp only [errors, h, hbi, Bool.not_false, Bool.not_true, Bool.and_false,
        Bool.false_eq_true, if_false, List.append_nil]
      by_cases hbt : isBlank t <;> by_cases hbr : isBlank rcp <;>
        simp [hbt, hbr, List.lookup]
    · simp only [errors, h, hbi, Bool.not_false, Bool.not_true, Bool.and_false,
        Bool.false_eq_true, if_false, List.append_nil]
      by_cases hbt : isBlank t <;> by_cases hbr : isBlank rcp <;>
        simp [hbt, hbr, List.lookup]

/-- C4 witness: `gif` is rejected with the invalid-type message, `jpg`
yields no `imgType` entry. -/
theorem c4_image_extension_whitelist_witness :
    isBlank "gif" = false ∧ checkImageType "gif" = false ∧
    List.lookup "imgType" (errors "t" "r" "gif" false) =
      some "Invalid image type. Only jpg, jpeg, and png are allowed." ∧
    checkImageType "jpg" = true ∧
    List.lookup "imgType" (errors "t" "r" "jpg" false) = none :=
  ⟨by decide, by decide,
    c4_image_extension_whitelist.1 "t" "r" "gif" false (by decide) (by decide),
    by decide,
    c4_image_extension_whitelist.2 "t" "r" "jpg" false (by decide)⟩


/-- C2 counterexample: starting from a well-formed state, (a) the delete
handler removes the thumbnail file *before* removing the row, so its
intermediate state has a readable row whose file is gone — an exception
window the claim does not allow; (b) the edit handler deletes the old file
*before* the record update, so its intermediate state likewise exposes a
readable row (still naming the old thumbnail) whose file is gone — the
window sits before the update, not "between record update and old-file
cleanup". -/
theorem c2_counterexample :
    goodState ⟨[⟨1, "t", "r", "a.jpg"⟩], ["a.jpg"]⟩ ∧
    (deleteRecipe ⟨[⟨1, "t", "r", "a.jpg"⟩], ["a.jpg"]⟩ (.num 1) false).states.getD 0 ⟨[], []⟩ =
      ⟨[⟨1, "t", "r", "a.jpg"⟩], []⟩ ∧
    ¬ thumbInv ⟨[⟨1, "t", "r", "a.jpg"⟩], []⟩ ∧
    (updateRecipe ⟨[⟨1, "t", "r", "a.jpg"⟩], ["a.jpg"]⟩
        ⟨.str "1", .str "x", .str "y", some "b.jpg"⟩ false).states.getD 1 ⟨[], []⟩ =
      ⟨[⟨1, "t", "r", "a.jpg"⟩], ["b.jpg"]⟩ ∧
    ¬ thumbInv ⟨[⟨1, "t", "r", "a.jpg"⟩], ["b.jpg"]⟩ := by
  refine ⟨by decide, by decide, by decide, by decide, by decide⟩

/-- C2 (amended): from a well-formed state (invariant holds, generated
thumbnail names pairwise distinct) every *complete* operation — create,
delete, and edit (with a fresh uploaded name, whether or not old-file
cleanup fails) — leaves a state in which every readable row's thumbnail
file exists; the transient violations sit inside delete (between file
removal and row removal) and inside edit (between old-file removal and the
record update), as exhibited by the counterexample. -/
theorem c2_boundary_invariant (s : ServerState) (hg : goodState s) :
    (∀ (r : AddReq) (newId : Int), thumbInv (addRecipe s r newId).final) ∧
    (∀ (id : JSValue) (unlinkFails : Bool), thumbInv (deleteRecipe s id unlinkFails).final) ∧
    (∀ (r : EditReq) (cleanupFails : Bool),
      (∀ f, r.file = some f → f ∉ s.rows.map Row.thumbnail) →
      thumbInv (updateRecipe s r cleanupFails).final) := by
  obtain ⟨hinv, hnodup⟩ := hg
  refine ⟨?_, ?_, ?_⟩
  · -- POST /add-recipe
    intro r newId
    by_cases hv : storeValidate r = []
    · match hfile : r.file with
      | none =>
        exfalso
        rw [storeValidate, hfile] at hv
        simp [requiredMixed] at hv
      | some f =>
        simp [addRecipe, hv, hfile, final_two, multerWrite]
        intro r' hr'
        rw [List.mem_cons]
        rw [List.mem_append, List.mem_singleton] at hr'
        rcases hr' with h | h
        · exact Or.inr (hinv r' h)
        · subst h
          exact Or.inl rfl
    · match hfile : r.file with
      | none =>
        simp [addRecipe, hv, hfile, final_one, multerWrite]
        exact hinv
      | some f =>
        simp [addRecipe, hv, hfile, final_one, multerWrite]
        intro r' hr'
        exact List.mem_cons_of_mem _ (hinv r' hr')
  · -- POST /delete-recipe
    intro id uf
    by_cases ht : id.truthy = false
    · simp [deleteRecipe, ht, final_one]
      exact hinv
    · have ht2 : id.truthy = true := by
        revert ht
        cases id.truthy <;> simp
      cases hrow : findRow s.rows id with
      | none =>
        simp [deleteRecipe, ht2, hrow, final_one]
        exact hinv
      | some row =>
        have hrow' := hrow
        rw [findRow] at hrow'
        have hrmem : row ∈ s.rows := List.mem_of_find?_eq_some hrow'
        have hrpred : idMatches id row.id = true := by simpa using List.find?_some hrow'
        cases uf with
        | true =>
          simp [deleteRecipe, ht2, hrow, final_one]
          exact hinv
        | false =>
          simp [deleteRecipe, ht2, hrow, final_two]
          intro r' hr'
          rw [List.mem_filter] at hr'
          obtain ⟨hmem, hpred⟩ := hr'
          rw [List.mem_filter]
          refine ⟨hinv r' hmem, ?_⟩
          have hne : r' ≠ row := by
            intro hEq
            rw [hEq, hrpred] at hpred
            simp at hpred
          have hthumb : r'.thumbnail ≠ row.thumbnail := fun hEq =>
            hne (List.inj_on_of_nodup_map hnodup hmem hrmem hEq)
          simp [hthumb]
  · -- PUT /update-recipe
    intro r cf hfresh
    by_cases hv : editValidate r = []
    · cases hrow : findRow s.rows r.id with
      | none =>
        match hfile : r.file with
        | none =>
          simp [updateRecipe, hv, hrow, hfile, final_one, multerWrite]
          exact hinv
        | some f =>
          simp [updateRecipe, hv, hrow, hfile, final_one, multerWrite]
          intro r' hr'
          exact List.mem_cons_of_mem _ (hinv r' hr')
      | some row =>
        have hrow' := hrow
        rw [findRow] at hrow'
        have hrmem : row ∈ s.rows := List.mem_of_find?_eq_some hrow'
        have hrpred : idMatches r.id row.id = true := by simpa using List.find?_some hrow'
        match hfile : r.file with
        | none =>
          simp [updateRecipe, hv, hrow, hfile, final_two, multerWrite, updateRow]
          intro r'' hr''
          rw [List.mem_map] at hr''
          obtain ⟨orig, homem, heq⟩ := hr''
          subst heq
          by_cases hm : idMatches r.id orig.id = true
          · rw [if_pos hm]
            exact hinv row hrmem
          · rw [if_neg hm]
            exact hinv orig homem
        | some newf =>
          have hnewf : newf ∉ s.rows.map Row.thumbnail := hfresh newf hfile
          have hnew_ne_old : newf ≠ row.thumbnail := fun hEq =>
            hnewf (hEq ▸ List.mem_map_of_mem Row.thumbnail hrmem)
          cases cf with
          | true =>
            simp [updateRecipe, hv, hrow, hfile, final_three, multerWrite, updateRow]
            intro r'' hr''
            rw [List.mem_map] at hr''
            obtain ⟨orig, homem, heq⟩ := hr''
            subst heq
            rw [List.mem_cons]
            by_cases hm : idMatches r.id orig.id = true
            · rw [if_pos hm]
              exact Or.inl rfl
            · rw [if_neg hm]
              exact Or.inr (hinv orig homem)
          | false =>
            simp only [updateRecipe, hv, if_pos, hrow, hfile, multerWrite_rows]
            simp [final_three, multerWrite, updateRow]
            intro r'' hr''
            rw [List.mem_map] at hr''
            obtain ⟨orig, homem, heq⟩ := hr''
            subst heq
            rw [List.mem_filter, List.mem_cons]
            by_cases hm : idMatches r.id orig.id = true
            · rw [if_pos hm]
              refine ⟨Or.inl rfl, ?_⟩
              simp [hnew_ne_old]
            · rw [if_neg hm]
              have hne : orig ≠ row := by
                intro hEq
                rw [hEq] at hm
                exact hm hrpred
              have hthumb : orig.thumbnail ≠ row.thumbnail := fun hEq =>
                hne (List.inj_on_of_nodup_map hnodup homem hrmem hEq)
              exact ⟨Or.inr (hinv orig homem), by simp [hthumb]⟩
    · match hfile : r.file with
      | none =>
        simp [updateRecipe, hv, hfile, final_one, multerWrite]
        exact hinv
      | some f =>
        simp [updateRecipe, hv, hfile, final_one, multerWrite]
        intro r' hr'
        exact List.mem_cons_of_mem _ (hinv r' hr')

/-- C2 witness: the amended preservation applied to a concrete well-formed
state and a concrete instance of each operation. -/
theorem c2_boundary_invariant_witness :
    goodState ⟨[⟨1, "t", "r", "a.jpg"⟩], ["a.jpg"]⟩ ∧
    thumbInv (addRecipe ⟨[⟨1, "t", "r", "a.jpg"⟩], ["a.jpg"]⟩
      ⟨.str "Soup", .str "Boil water", some "b.jpg"⟩ 2).final ∧
    thumbInv (deleteRecipe ⟨[⟨1, "t", "r", "a.jpg"⟩], ["a.jpg"]⟩ (.num 1) false).final ∧
    thumbInv (updateRecipe ⟨[⟨1, "t", "r", "a.jpg"⟩], ["a.jpg"]⟩
      ⟨.str "1", .str "x", .str "y", some "b.jpg"⟩ false).final :=
  ⟨by decide,
    (c2_boundary_invariant ⟨[⟨1, "t", "r", "a.jpg"⟩], ["a.jpg"]⟩ (by decide)).1
      ⟨.str "Soup", .str "Boil water", some "b.jpg"⟩ 2,
    (c2_boundary_invariant ⟨[⟨1, "t", "r", "a.jpg"⟩], ["a.jpg"]⟩ (by decide)).2.1 (.num 1) false,
    (c2_boundary_invariant ⟨[⟨1, "t", "r", "a.jpg"⟩], ["a.jpg"]⟩ (by decide)).2.2
      ⟨.str "1", .str "x", .str "y", some "b.jpg"⟩ false (by decide)⟩


end RecipeBook
